import Mathlib

/-!
A shallow embedding of the task dependency resolution and execution engine of
the workflow backend: the task state machine, `TaskService.prepare` (the
dependency evaluator), `TaskService.run` (the executor),
`WorkflowService.updateWorkflowFinalResult` (the aggregator) and the batching
loop of `TaskWorker.pool` (the poller), together with theorems checking the
specification's claims about them.

Modelling conventions:
* entities are records over `Nat` identifiers and `String` payloads;
* the persistence layer (TypeORM repositories) is an explicit record of lists
  (`DB`); `save` replaces the row with the same primary key or appends;
* async code is sequentialised: every function returns the database it leaves
  behind; a thrown JS error is an `Except.error` carrying the message;
* the pluggable jobs (business logic, out of scope) are a registry parameter
  `Handlers`; a job either returns a serialized payload or throws;
* JSON serialization/parsing of opaque payloads is treated as the identity on
  the stored string, and the aggregator's final result is stored structurally
  (serialization is injective and plays no role in the claims);
* result ids, generated by the database on insert, are a `freshResultId`
  parameter of the executor.
-/

namespace TaskEngine

/-- Task statuses, from the `TaskStatus` enum of `TaskService.ts`. -/
inductive TaskStatus where
  | queued
  | ready
  | inProgress
  | completed
  | failed
  | skipped
deriving DecidableEq, Repr

/-- Workflow statuses, from the `WorkflowStatus` enum of `WorkflowFactory.ts`. -/
inductive WorkflowStatus where
  | initial
  | inProgress
  | completed
  | failed
deriving DecidableEq, Repr

/-- A row of the `results` table (`Result.ts`): generated id, owning task,
serialized data payload. -/
structure ResultRow where
  resultId : Nat
  taskId : Nat
  data : Option String
deriving DecidableEq, Repr

/-- A loaded dependency entity, with the fields the engine reads from an
element of `task.dependencies` (a many-to-many relation of `Task` rows). -/
structure Dep where
  taskId : Nat
  status : TaskStatus
deriving DecidableEq, Repr

/-- A row of the `tasks` table (`Task.ts`), with the fields the engine reads
or writes. `workflowId` stands for `task.workflow.workflowId`;
`dependencies` is the loaded many-to-many relation; `dependencyResults` is
the transient field `run` fills from `getDependenciesResults`. -/
structure Task where
  taskId : Nat
  workflowId : Nat
  stepNumber : Nat
  taskType : String
  status : TaskStatus
  progress : Option String
  resultId : Option Nat
  dependencies : List Dep
  dependencyResults : List ResultRow
deriving DecidableEq, Repr

/-- One per-task record of the aggregated final result
(`updateWorkflowFinalResult`): identity, kind and status, plus either the
parsed result payload or the error taken from the task's progress field. -/
structure TaskInfo where
  taskId : Nat
  taskType : String
  status : TaskStatus
  result : Option String
  error : Option String
deriving DecidableEq, Repr

/-- The `summary` object of the aggregated final result. -/
structure Summary where
  completedTasks : Nat
  failedTasks : Nat
deriving DecidableEq, Repr

/-- The aggregated final result structure built by
`updateWorkflowFinalResult` (stored JSON-serialized on the workflow; the
serialization is abstracted away). -/
structure FinalResult where
  tasks : List TaskInfo
  summary : Summary
  success : Bool
deriving DecidableEq, Repr

/-- A row of the `workflows` table (`Workflow.ts`), with the fields the
engine reads or writes. -/
structure Workflow where
  workflowId : Nat
  status : WorkflowStatus
  finalResult : Option FinalResult
deriving DecidableEq, Repr

/-- The persistent store backing the three repositories. -/
structure DB where
  workflows : List Workflow
  tasks : List Task
  results : List ResultRow
deriving DecidableEq, Repr

/-- `workflowRepository.findOne({ where: { workflowId } })`. -/
def findWorkflow (db : DB) (wid : Nat) : Option Workflow :=
  db.workflows.find? (fun w => w.workflowId == wid)

/-- `taskRepository.findOne` by primary key. -/
def findTask (db : DB) (tid : Nat) : Option Task :=
  db.tasks.find? (fun t => t.taskId == tid)

/-- `resultRepository.findOne({ where: { taskId } })`. -/
def findResultByTaskId (db : DB) (tid : Nat) : Option ResultRow :=
  db.results.find? (fun r => r.taskId == tid)

/-- The `tasks` relation of a workflow: all task rows owned by it. -/
def workflowTasks (db : DB) (wid : Nat) : List Task :=
  db.tasks.filter (fun t => t.workflowId == wid)

/-- `taskRepository.save`: update the row with the same primary key, or
insert a new row. -/
def saveTask (db : DB) (t : Task) : DB :=
  { db with tasks :=
      if db.tasks.any (fun u => u.taskId == t.taskId) then
        db.tasks.map (fun u => if u.taskId == t.taskId then t else u)
      else
        db.tasks ++ [t] }

/-- `workflowRepository.save`. -/
def saveWorkflow (db : DB) (w : Workflow) : DB :=
  { db with workflows :=
      if db.workflows.any (fun u => u.workflowId == w.workflowId) then
        db.workflows.map (fun u => if u.workflowId == w.workflowId then w else u)
      else
        db.workflows ++ [w] }

/-- `resultRepository.save` of a freshly created result row. -/
def saveResult (db : DB) (r : ResultRow) : DB :=
  { db with results :=
      if db.results.any (fun u => u.resultId == r.resultId) then
        db.results.map (fun u => if u.resultId == r.resultId then r else u)
      else
        db.results ++ [r] }

/-- The ordering-gate test of `TaskService.prepare` (lines 60-64): some
sibling with a strictly smaller step number is neither completed nor
failed. -/
def prevIncomplete (tasks : List Task) (task : Task) : Prop :=
  ∃ t ∈ tasks, t.stepNumber < task.stepNumber ∧
    t.status ≠ TaskStatus.completed ∧ t.status ≠ TaskStatus.failed

instance (tasks : List Task) (task : Task) : Decidable (prevIncomplete tasks task) := by
  unfold prevIncomplete; infer_instance

/-- The status `TaskService.prepare` assigns, given the loaded sibling rows
of the workflow. Each branch of the source persists the task the same way
(`save` then return), so the branch structure is captured here and the
single save in `prepare` below. -/
def prepareStatus (tasks : List Task) (task : Task) : TaskStatus :=
  if prevIncomplete tasks task then
    TaskStatus.queued
  else if task.dependencies = [] then
    TaskStatus.ready
  else if ∃ d ∈ task.dependencies, d.status = TaskStatus.failed then
    TaskStatus.skipped
  else if ∀ d ∈ task.dependencies, d.status = TaskStatus.completed then
    TaskStatus.ready
  else
    TaskStatus.queued

/-- `TaskService.prepare`: load the owning workflow with its tasks, throw if
it is missing, evaluate the ordering and dependency gates, assign the
resulting status and persist the task before returning.  Returns the
database after the save together with the saved task entity. -/
def prepare (db : DB) (task : Task) : Except String (DB × Task) :=
  match findWorkflow db task.workflowId with
  | none =>
      Except.error ("Workflow " ++ toString task.workflowId ++ " not found")
  | some _ =>
      let t := { task with status := prepareStatus (workflowTasks db task.workflowId) task }
      Except.ok (saveTask db t, t)

/-- Replacing every row matching a key and then searching for the key finds
the replacement, provided some row matched. -/
theorem find?_map_replace (t : Task) (l : List Task)
    (h : l.any (fun u => u.taskId == t.taskId) = true) :
    (l.map (fun u => if u.taskId == t.taskId then t else u)).find?
      (fun u => u.taskId == t.taskId) = some t := by
  induction l with
  | nil => simp at h
  | cons a l ih =>
      by_cases ha : (a.taskId == t.taskId) = true
      · simp [List.find?, ha]
      · have ha' : (a.taskId == t.taskId) = false := by simpa using ha
        simp only [List.any_cons, ha', Bool.false_or] at h
        rw [List.map_cons, if_neg ha]
        simp only [List.find?, ha']
        exact ih h

/-- After `saveTask db t`, looking the task up by its id yields exactly the
saved entity. -/
theorem findTask_saveTask (db : DB) (t : Task) :
    findTask (saveTask db t) t.taskId = some t := by
  unfold findTask saveTask
  by_cases h : db.tasks.any (fun u => u.taskId == t.taskId) = true
  · simp only [h, if_true]
    exact find?_map_replace t db.tasks h
  · have h' : db.tasks.any (fun u => u.taskId == t.taskId) = false := by
      simpa using h
    simp only [h', Bool.false_eq_true, if_false]
    rw [List.find?_append]
    have hnone : db.tasks.find? (fun u => u.taskId == t.taskId) = none := by
      rw [List.find?_eq_none]
      intro u hu
      by_contra hc
      exact h (List.any_of_mem hu (by simpa using hc))
    simp [hnone, List.find?]

/-- Example dependency reference to task 1, completed. -/
def exDepA : Dep := { taskId := 1, status := TaskStatus.completed }

/-- Example dependency reference to task 2, completed. -/
def exDepB : Dep := { taskId := 2, status := TaskStatus.completed }

/-- Example task 1: step 1, completed, with a stored result. -/
def exTaskA : Task :=
  { taskId := 1, workflowId := 1, stepNumber := 1, taskType := "polygonArea",
    status := TaskStatus.completed, progress := none, resultId := some 11,
    dependencies := [], dependencyResults := [] }

/-- Example task 2: step 1, completed, with a stored result. -/
def exTaskB : Task :=
  { taskId := 2, workflowId := 1, stepNumber := 1, taskType := "analysis",
    status := TaskStatus.completed, progress := none, resultId := some 12,
    dependencies := [], dependencyResults := [] }

/-- Example task 3: step 2, queued, depending on tasks 1 and 2. -/
def exTaskC : Task :=
  { taskId := 3, workflowId := 1, stepNumber := 2, taskType := "reportGeneration",
    status := TaskStatus.queued, progress := none, resultId := none,
    dependencies := [exDepA, exDepB], dependencyResults := [] }

/-- Example workflow owning the three tasks. -/
def exWf1 : Workflow :=
  { workflowId := 1, status := WorkflowStatus.inProgress, finalResult := none }

/-- Example store: workflow 1 with tasks 1 and 2 completed (results stored)
and task 3 queued behind them. -/
def exDb1 : DB :=
  { workflows := [exWf1],
    tasks := [exTaskA, exTaskB, exTaskC],
    results := [{ resultId := 11, taskId := 1, data := some "out1" },
                { resultId := 12, taskId := 2, data := some "out2" }] }

/-- Example task 1 variant: still in progress (blocks later steps). -/
def exTaskA2 : Task :=
  { exTaskA with status := TaskStatus.inProgress, resultId := none }

/-- Example store where the step-1 task 1 is still in progress, so the
ordering gate blocks the step-2 task 3. -/
def exDb2 : DB :=
  { workflows := [exWf1],
    tasks := [exTaskA2, exTaskB, exTaskC],
    results := [{ resultId := 12, taskId := 2, data := some "out2" }] }

/-- Case analysis of `prepareStatus` when the ordering gate passes: the four
dependency-gate branches of `TaskService.prepare`. -/
theorem prepareStatus_cases (tasks : List Task) (task : Task)
    (hgate : ¬ prevIncomplete tasks task) :
    (task.dependencies = [] → prepareStatus tasks task = TaskStatus.ready) ∧
    ((∃ d ∈ task.dependencies, d.status = TaskStatus.failed) →
      prepareStatus tasks task = TaskStatus.skipped) ∧
    ((∀ d ∈ task.dependencies, d.status = TaskStatus.completed) →
      prepareStatus tasks task = TaskStatus.ready) ∧
    (task.dependencies ≠ [] →
      (¬ ∃ d ∈ task.dependencies, d.status = TaskStatus.failed) →
      (¬ ∀ d ∈ task.dependencies, d.status = TaskStatus.completed) →
      prepareStatus tasks task = TaskStatus.queued) := by
  unfold prepareStatus
  rw [if_neg hgate]
  split_ifs with h1 h2 h3
  · refine ⟨fun _ => rfl, fun hf => ?_, fun _ => rfl, fun hne _ _ => absurd h1 hne⟩
    rcases hf with ⟨d, hd, _⟩
    rw [h1] at hd
    cases hd
  · refine ⟨fun hd => absurd hd h1, fun _ => rfl, fun hc => ?_,
      fun _ hnf _ => absurd h2 hnf⟩
    rcases h2 with ⟨d, hd, hdf⟩
    exact absurd ((hc d hd).symm.trans hdf) (by decide)
  · exact ⟨fun hd => absurd hd h1, fun hf => absurd hf h2, fun _ => rfl,
      fun _ _ hnc => absurd h3 hnc⟩
  · exact ⟨fun hd => absurd hd h1, fun hf => absurd hf h2, fun hc => absurd hc h3,
      fun _ _ _ => rfl⟩

/-- Claim C1: for a queued task whose ordering gate passes (no sibling with a
strictly smaller step number outside completed/failed), `prepare` assigns
ready when the dependency set is empty, skipped when some dependency failed,
ready when every dependency completed, and queued otherwise — and the
assigned status is persisted (the returned database stores the updated
task). -/
theorem prepare_dependency_gate (db : DB) (task : Task) (wf : Workflow)
    (hwf : findWorkflow db task.workflowId = some wf)
    (_hq : task.status = TaskStatus.queued)
    (hgate : ¬ prevIncomplete (workflowTasks db task.workflowId) task) :
    ∃ t', prepare db task = Except.ok (saveTask db t', t') ∧
      findTask (saveTask db t') task.taskId = some t' ∧
      (task.dependencies = [] → t'.status = TaskStatus.ready) ∧
      ((∃ d ∈ task.dependencies, d.status = TaskStatus.failed) →
        t'.status = TaskStatus.skipped) ∧
      ((∀ d ∈ task.dependencies, d.status = TaskStatus.completed) →
        t'.status = TaskStatus.ready) ∧
      (task.dependencies ≠ [] →
        (¬ ∃ d ∈ task.dependencies, d.status = TaskStatus.failed) →
        (¬ ∀ d ∈ task.dependencies, d.status = TaskStatus.completed) →
        t'.status = TaskStatus.queued) := by
  obtain ⟨c1, c2, c3, c4⟩ := prepareStatus_cases (workflowTasks db task.workflowId) task hgate
  refine ⟨{ task with status := prepareStatus (workflowTasks db task.workflowId) task },
    ?_, ?_, c1, c2, c3, c4⟩
  · unfold prepare
    rw [hwf]
  · exact findTask_saveTask db _

/-- Claim C1 witness: task 3 of the example store depends on tasks 1 and 2,
both completed, so `prepare` marks it ready and persists that. -/
theorem prepare_dependency_gate_witness :
    ∃ t', prepare exDb1 exTaskC = Except.ok (saveTask exDb1 t', t') ∧
      findTask (saveTask exDb1 t') exTaskC.taskId = some t' ∧
      (exTaskC.dependencies = [] → t'.status = TaskStatus.ready) ∧
      ((∃ d ∈ exTaskC.dependencies, d.status = TaskStatus.failed) →
        t'.status = TaskStatus.skipped) ∧
      ((∀ d ∈ exTaskC.dependencies, d.status = TaskStatus.completed) →
        t'.status = TaskStatus.ready) ∧
      (exTaskC.dependencies ≠ [] →
        (¬ ∃ d ∈ exTaskC.dependencies, d.status = TaskStatus.failed) →
        (¬ ∀ d ∈ exTaskC.dependencies, d.status = TaskStatus.completed) →
        t'.status = TaskStatus.queued) :=
  prepare_dependency_gate exDb1 exTaskC exWf1 (by rfl) (by rfl) (by decide)

/-- Claim C2: a task with a sibling at a strictly smaller step number that is
neither completed nor failed is set to queued and persisted, whatever its
dependency set is (the dependencies are not evaluated in this branch). -/
theorem prepare_ordering_gate (db : DB) (task : Task) (wf : Workflow)
    (hwf : findWorkflow db task.workflowId = some wf)
    (hprev : ∃ t ∈ workflowTasks db task.workflowId,
      t.stepNumber < task.stepNumber ∧
      t.status ≠ TaskStatus.completed ∧ t.status ≠ TaskStatus.failed) :
    ∀ ds, ∃ t', prepare db { task with dependencies := ds }
        = Except.ok (saveTask db t', t') ∧
      t' = { task with dependencies := ds, status := TaskStatus.queued } ∧
      findTask (saveTask db t') task.taskId = some t' := by
  intro ds
  have hprev' : prevIncomplete (workflowTasks db task.workflowId)
      { task with dependencies := ds } := hprev
  refine ⟨{ task with dependencies := ds, status := TaskStatus.queued }, ?_, rfl, ?_⟩
  · unfold prepare
    have hwid : ({ task with dependencies := ds } : Task).workflowId = task.workflowId := rfl
    rw [hwid, hwf]
    unfold prepareStatus
    rw [if_pos hprev']
  · exact findTask_saveTask db _

/-- Claim C2 witness: with task 1 still in progress at step 1, `prepare` on
the step-2 task 3 yields queued, for any dependency list (here its actual
one). -/
theorem prepare_ordering_gate_witness :
    ∃ t', prepare exDb2 { exTaskC with dependencies := [exDepA, exDepB] }
        = Except.ok (saveTask exDb2 t', t') ∧
      t' = { exTaskC with dependencies := [exDepA, exDepB], status := TaskStatus.queued } ∧
      findTask (saveTask exDb2 t') exTaskC.taskId = some t' :=
  prepare_ordering_gate exDb2 exTaskC exWf1 (by rfl) (by decide) [exDepA, exDepB]

/-- Claim C10: whatever the input task and store, the only statuses `prepare`
ever assigns are queued, ready and skipped: the dependency evaluator never
writes in-progress, completed or failed. -/
theorem prepare_assigns_only_queued_ready_skipped (db : DB) (task : Task)
    (db' : DB) (t' : Task) (h : prepare db task = Except.ok (db', t')) :
    t'.status = TaskStatus.queued ∨ t'.status = TaskStatus.ready ∨
      t'.status = TaskStatus.skipped := by
  unfold prepare at h
  cases hwf : findWorkflow db task.workflowId with
  | none => rw [hwf] at h; cases h
  | some wf =>
      rw [hwf] at h
      cases h
      show prepareStatus (workflowTasks db task.workflowId) task = _ ∨ _ ∨ _
      unfold prepareStatus
      split_ifs <;> simp

/-- Claim C10 witness: at the concrete example input the assigned status is
one of queued, ready, skipped. -/
theorem prepare_assigns_only_queued_ready_skipped_witness :
    ({ exTaskC with
        status := prepareStatus (workflowTasks exDb1 exTaskC.workflowId) exTaskC } : Task).status
        = TaskStatus.queued ∨
      ({ exTaskC with
        status := prepareStatus (workflowTasks exDb1 exTaskC.workflowId) exTaskC } : Task).status
        = TaskStatus.ready ∨
      ({ exTaskC with
        status := prepareStatus (workflowTasks exDb1 exTaskC.workflowId) exTaskC } : Task).status
        = TaskStatus.skipped :=
  prepare_assigns_only_queued_ready_skipped exDb1 exTaskC _ _ (by rfl)

/-- Workflow analogue of `find?_map_replace`. -/
theorem find?_map_replace_wf (w : Workflow) (l : List Workflow)
    (h : l.any (fun u => u.workflowId == w.workflowId) = true) :
    (l.map (fun u => if u.workflowId == w.workflowId then w else u)).find?
      (fun u => u.workflowId == w.workflowId) = some w := by
  induction l with
  | nil => simp at h
  | cons a l ih =>
      by_cases ha : (a.workflowId == w.workflowId) = true
      · simp [List.find?, ha]
      · have ha' : (a.workflowId == w.workflowId) = false := by simpa using ha
        simp only [List.any_cons, ha', Bool.false_or] at h
        rw [List.map_cons, if_neg ha]
        simp only [List.find?, ha']
        exact ih h

/-- After `saveWorkflow db w`, looking the workflow up by its id yields
exactly the saved entity. -/
theorem findWorkflow_saveWorkflow (db : DB) (w : Workflow) :
    findWorkflow (saveWorkflow db w) w.workflowId = some w := by
  unfold findWorkflow saveWorkflow
  by_cases h : db.workflows.any (fun u => u.workflowId == w.workflowId) = true
  · simp only [h, if_true]
    exact find?_map_replace_wf w db.workflows h
  · have h' : db.workflows.any (fun u => u.workflowId == w.workflowId) = false := by
      simpa using h
    simp only [h', Bool.false_eq_true, if_false]
    rw [List.find?_append]
    have hnone : db.workflows.find? (fun u => u.workflowId == w.workflowId) = none := by
      rw [List.find?_eq_none]
      intro u hu
      by_contra hc
      exact h (List.any_of_mem hu (by simpa using hc))
    simp [hnone, List.find?]

/-- The pluggable handler registry: the `jobMap` of `JobFactory.ts` together
with the business logic of each job (out of scope, so kept abstract). A job
takes the task entity and either returns its serialized result payload or
throws. -/
abbrev Handlers := String → Option (Task → Except String String)

/-- `JobFactory.createJobFromTaskType`: look the task type up in the job map
and throw when no job is registered for it. -/
def createJobFromTaskType (handlers : Handlers) (taskType : String) :
    Except String (Task → Except String String) :=
  match handlers taskType with
  | none => Except.error ("No job found for task type: " ++ taskType)
  | some job => Except.ok job

/-- `TaskService.getDependenciesResults`: fetch the dependency task rows by
id, then the result rows whose id is among those tasks' result ids. -/
def getDependenciesResults (db : DB) (task : Task) : List ResultRow :=
  if task.dependencies = [] then []
  else
    let deps := db.tasks.filter
      (fun t => task.dependencies.any (fun d => d.taskId == t.taskId))
    db.results.filter (fun r => deps.any (fun t => t.resultId == some r.resultId))

/-- The workflow status recomputation at the end of `TaskService.run`
(spec section 4.4): failed if any task failed, else completed if all tasks
completed, else in progress. -/
def deriveWorkflowStatus (tasks : List Task) : WorkflowStatus :=
  if ∃ t ∈ tasks, t.status = TaskStatus.failed then
    WorkflowStatus.failed
  else if ∀ t ∈ tasks, t.status = TaskStatus.completed then
    WorkflowStatus.completed
  else
    WorkflowStatus.inProgress

/-- The task entity as `run` first persists it (lines 171-174): in progress,
progress message set, dependency results loaded. -/
def startedTask (db : DB) (task : Task) : Task :=
  { task with
      status := TaskStatus.inProgress
      progress := some "starting job..."
      dependencyResults := getDependenciesResults db task }

/-- The task entity as `run` persists it after a handler failure
(lines 190-192): failed, progress cleared. -/
def failedTask (db : DB) (task : Task) : Task :=
  { startedTask db task with status := TaskStatus.failed, progress := none }

/-- The task entity as `run` persists it after success (lines 182-184):
result reference set, completed, progress cleared. -/
def completedTask (db : DB) (task : Task) (freshResultId : Nat) : Task :=
  { startedTask db task with
      resultId := some freshResultId
      status := TaskStatus.completed
      progress := none }

/-- `TaskService.run`: refuse a non-ready task; otherwise persist the task
as in progress, resolve the job (outside the try block), run it, persist the
result row and the completed task on success or the failed task on error
(rethrowing), and — only when no error was thrown — reload the owning
workflow and persist its recomputed status. `freshResultId` models the
database-generated id of the inserted result row. Returns the database left
behind plus either the saved task or the propagated error message. -/
def run (handlers : Handlers) (freshResultId : Nat) (db : DB) (task : Task) :
    DB × Except String Task :=
  if task.status ≠ TaskStatus.ready then
    (db, Except.error ("Task " ++ toString task.taskId ++ " is not ready to run"))
  else
    let db1 := saveTask db (startedTask db task)
    match createJobFromTaskType handlers task.taskType with
    | Except.error e => (db1, Except.error e)
    | Except.ok job =>
        match job (startedTask db task) with
        | Except.error e => (saveTask db1 (failedTask db task), Except.error e)
        | Except.ok payload =>
            let db2 := saveResult db1
              { resultId := freshResultId, taskId := task.taskId, data := some payload }
            let db3 := saveTask db2 (completedTask db task freshResultId)
            match findWorkflow db3 task.workflowId with
            | none => (db3, Except.ok (completedTask db task freshResultId))
            | some wf =>
                (saveWorkflow db3
                  { wf with status := deriveWorkflowStatus (workflowTasks db3 wf.workflowId) },
                 Except.ok (completedTask db task freshResultId))

/-- Example registry whose "analysis" job succeeds with payload "out". -/
def exHandlersOk : Handlers :=
  fun taskType => if taskType = "analysis" then some (fun _ => Except.ok "out") else none

/-- Example registry whose "analysis" job throws "boom". -/
def exHandlersFail : Handlers :=
  fun taskType => if taskType = "analysis" then some (fun _ => Except.error "boom") else none

/-- Example registry with no jobs registered at all. -/
def exHandlersNone : Handlers := fun _ => none

/-- Example ready task 5, the only task of workflow 2. -/
def exTaskR : Task :=
  { taskId := 5, workflowId := 2, stepNumber := 1, taskType := "analysis",
    status := TaskStatus.ready, progress := none, resultId := none,
    dependencies := [], dependencyResults := [] }

/-- Example workflow 2, in progress. -/
def exWf2 : Workflow :=
  { workflowId := 2, status := WorkflowStatus.inProgress, finalResult := none }

/-- Example store: workflow 2 with the single ready task 5. -/
def exDb3 : DB := { workflows := [exWf2], tasks := [exTaskR], results := [] }

/-- Claim C5: `run` on a task whose status is not ready throws the
"is not ready to run" error and leaves the store completely untouched. -/
theorem run_not_ready (handlers : Handlers) (freshResultId : Nat) (db : DB)
    (task : Task) (h : task.status ≠ TaskStatus.ready) :
    run handlers freshResultId db task
      = (db, Except.error ("Task " ++ toString task.taskId ++ " is not ready to run")) := by
  unfold run
  rw [if_pos h]

/-- Claim C5 witness: `run` on the queued task 3 throws and changes
nothing. -/
theorem run_not_ready_witness :
    run exHandlersOk 100 exDb1 exTaskC
      = (exDb1, Except.error ("Task " ++ toString exTaskC.taskId ++ " is not ready to run")) :=
  run_not_ready exHandlersOk 100 exDb1 exTaskC (by decide)

/-- Claim C3 counterexample: the job of ready task 5 throws "boom"; `run`
persists the task as failed and rethrows, but never recomputes the owning
workflow's status: workflow 2 stays in progress even though the
recomputation over its tasks would yield failed. -/
theorem run_failure_skips_workflow_recompute :
    (run exHandlersFail 100 exDb3 exTaskR).2 = Except.error "boom" ∧
    findTask (run exHandlersFail 100 exDb3 exTaskR).1 5 = some (failedTask exDb3 exTaskR) ∧
    deriveWorkflowStatus (workflowTasks (run exHandlersFail 100 exDb3 exTaskR).1 2)
      = WorkflowStatus.failed ∧
    findWorkflow (run exHandlersFail 100 exDb3 exTaskR).1 2 = some exWf2 ∧
    exWf2.status = WorkflowStatus.inProgress ∧
    WorkflowStatus.inProgress ≠ WorkflowStatus.failed :=
  ⟨rfl, rfl, by decide, rfl, rfl, by decide⟩

/-- Claim C3 amended: only on success does `run` reload the owning workflow
and persist its recomputed status (failed if any task failed, else completed
if all tasks completed, else in progress); on any error outcome (handler
failure or missing handler) the workflow store is left unchanged. -/
theorem run_workflow_recompute (handlers : Handlers) (freshResultId : Nat)
    (db : DB) (task : Task) (wf : Workflow)
    (hwf : findWorkflow db task.workflowId = some wf) :
    (∀ t', (run handlers freshResultId db task).2 = Except.ok t' →
      ∃ w', findWorkflow (run handlers freshResultId db task).1 task.workflowId = some w' ∧
        w'.status = deriveWorkflowStatus
          (workflowTasks (run handlers freshResultId db task).1 task.workflowId)) ∧
    (∀ e, (run handlers freshResultId db task).2 = Except.error e →
      (run handlers freshResultId db task).1.workflows = db.workflows) := by
  by_cases hr : task.status ≠ TaskStatus.ready
  · rw [run_not_ready handlers freshResultId db task hr]
    exact ⟨fun t' h => Except.noConfusion h, fun e _ => rfl⟩
  · cases hjob : handlers task.taskType with
    | none =>
        have hrun : run handlers freshResultId db task
            = (saveTask db (startedTask db task),
               Except.error ("No job found for task type: " ++ task.taskType)) := by
          unfold run
          rw [if_neg hr]
          simp only [createJobFromTaskType, hjob]
        rw [hrun]
        exact ⟨fun t' h => Except.noConfusion h, fun e _ => rfl⟩
    | some job =>
        cases hout : job (startedTask db task) with
        | error e =>
            have hrun : run handlers freshResultId db task
                = (saveTask (saveTask db (startedTask db task)) (failedTask db task),
                   Except.error e) := by
              unfold run
              rw [if_neg hr]
              simp only [createJobFromTaskType, hjob, hout]
            rw [hrun]
            exact ⟨fun t' h => Except.noConfusion h, fun e' _ => rfl⟩
        | ok payload =>
            have hfw : db.workflows.find? (fun w => w.workflowId == task.workflowId)
                = some wf := hwf
            have hkey : wf.workflowId = task.workflowId := by
              simpa using List.find?_some hfw
            have hwf3 : findWorkflow (saveTask (saveResult (saveTask db (startedTask db task))
                { resultId := freshResultId, taskId := task.taskId, data := some payload })
                (completedTask db task freshResultId)) task.workflowId = some wf := hwf
            unfold run
            rw [if_neg hr]
            simp only [createJobFromTaskType, hjob, hout, hwf3]
            refine ⟨fun t' _ => ?_, fun e h => Except.noConfusion h⟩
            rw [← hkey]
            exact ⟨_, findWorkflow_saveWorkflow _ _, rfl⟩

/-- Claim C3 amended witness: on the successful run of task 5, the stored
status of workflow 2 equals the recomputation over its tasks. -/
theorem run_workflow_recompute_witness :
    ∃ w', findWorkflow (run exHandlersOk 100 exDb3 exTaskR).1 exTaskR.workflowId = some w' ∧
      w'.status = deriveWorkflowStatus
        (workflowTasks (run exHandlersOk 100 exDb3 exTaskR).1 exTaskR.workflowId) :=
  (run_workflow_recompute exHandlersOk 100 exDb3 exTaskR exWf2 (by rfl)).1
    (completedTask exDb3 exTaskR 100) (by rfl)

/-- Claim C4 counterexample: no handler is registered for ready task 5;
`run` propagates "No job found for task type: analysis" but the task stays
persisted as in progress — a non-terminal state — instead of being marked
failed. -/
theorem run_missing_handler_counterexample :
    (run exHandlersNone 100 exDb3 exTaskR).2
        = Except.error "No job found for task type: analysis" ∧
    findTask (run exHandlersNone 100 exDb3 exTaskR).1 5 = some (startedTask exDb3 exTaskR) ∧
    (startedTask exDb3 exTaskR).status = TaskStatus.inProgress ∧
    TaskStatus.inProgress ≠ TaskStatus.failed :=
  ⟨rfl, rfl, rfl, by decide⟩

/-- Claim C4 amended: a missing handler does not crash the cycle — `run`
propagates the "No job found" error to the caller — but it is not treated
like a handler execution failure: the unit is left persisted in progress
(the status written at the start of `run`), not failed. -/
theorem run_missing_handler (handlers : Handlers) (freshResultId : Nat)
    (db : DB) (task : Task)
    (h1 : ¬ task.status ≠ TaskStatus.ready)
    (h2 : handlers task.taskType = none) :
    run handlers freshResultId db task
      = (saveTask db (startedTask db task),
         Except.error ("No job found for task type: " ++ task.taskType)) ∧
    findTask (saveTask db (startedTask db task)) task.taskId
      = some (startedTask db task) ∧
    (startedTask db task).status = TaskStatus.inProgress := by
  refine ⟨?_, findTask_saveTask db _, rfl⟩
  unfold run
  rw [if_neg h1]
  simp only [createJobFromTaskType, h2]

/-- Claim C4 amended witness: the amended behavior at the concrete missing
handler input. -/
theorem run_missing_handler_witness :
    run exHandlersNone 100 exDb3 exTaskR
      = (saveTask exDb3 (startedTask exDb3 exTaskR),
         Except.error ("No job found for task type: " ++ exTaskR.taskType)) ∧
    findTask (saveTask exDb3 (startedTask exDb3 exTaskR)) exTaskR.taskId
      = some (startedTask exDb3 exTaskR) ∧
    (startedTask exDb3 exTaskR).status = TaskStatus.inProgress :=
  run_missing_handler exHandlersNone 100 exDb3 exTaskR (by decide) (by rfl)

/-- Claim C7 counterexample: task 5's job throws "boom"; `run` persists the
failed task with `progress` cleared to none, not set to the error
message. -/
theorem progress_on_failure_counterexample :
    findTask (run exHandlersFail 100 exDb3 exTaskR).1 5 = some (failedTask exDb3 exTaskR) ∧
    (failedTask exDb3 exTaskR).status = TaskStatus.failed ∧
    (failedTask exDb3 exTaskR).progress = none ∧
    (failedTask exDb3 exTaskR).progress ≠ some "boom" :=
  ⟨rfl, rfl, rfl, by decide⟩

/-- Claim C7 amended: on completion `run` clears `progress`; on handler
failure it also clears `progress` (the error message is only logged and
propagated, never stored on the unit); and `prepare` never touches
`progress` — unconditionally, for every input unit whatever its status, so
in particular a unit it marks skipped keeps its previous progress value. -/
theorem progress_field_discipline (handlers : Handlers) (freshResultId : Nat)
    (db : DB) (task : Task) :
    (∀ job payload, ¬ task.status ≠ TaskStatus.ready →
      handlers task.taskType = some job →
      job (startedTask db task) = Except.ok payload →
      ∃ t', (run handlers freshResultId db task).2 = Except.ok t' ∧
        t'.status = TaskStatus.completed ∧ t'.progress = none) ∧
    (∀ job e, ¬ task.status ≠ TaskStatus.ready →
      handlers task.taskType = some job →
      job (startedTask db task) = Except.error e →
      (run handlers freshResultId db task).2 = Except.error e ∧
      findTask (run handlers freshResultId db task).1 task.taskId
        = some (failedTask db task) ∧
      (failedTask db task).status = TaskStatus.failed ∧
      (failedTask db task).progress = none) ∧
    (∀ db' t', prepare db task = Except.ok (db', t') → t'.progress = task.progress) := by
  refine ⟨?_, ?_, ?_⟩
  · intro job payload h1 h2 hout
    refine ⟨completedTask db task freshResultId, ?_, rfl, rfl⟩
    unfold run
    rw [if_neg h1]
    simp only [createJobFromTaskType, h2, hout]
    cases hw : findWorkflow
        (saveTask (saveResult (saveTask db (startedTask db task))
          { resultId := freshResultId, taskId := task.taskId, data := some payload })
          (completedTask db task freshResultId)) task.workflowId <;> simp [hw]
  · intro job e h1 h2 hout
    have hrun : run handlers freshResultId db task
        = (saveTask (saveTask db (startedTask db task)) (failedTask db task),
           Except.error e) := by
      unfold run
      rw [if_neg h1]
      simp only [createJobFromTaskType, h2, hout]
    rw [hrun]
    exact ⟨rfl, findTask_saveTask _ _, rfl, rfl⟩
  · intro db' t' h
    unfold prepare at h
    cases hwf : findWorkflow db task.workflowId with
    | none => rw [hwf] at h; cases h
    | some wf =>
        rw [hwf] at h
        cases h
        rfl

/-- Claim C7 amended witness: the failing-job branch at the concrete input
(task 5 failed, progress cleared, not "boom"), and the prepare branch at the
concrete queued task 3, marked ready with its progress untouched. -/
theorem progress_field_discipline_witness :
    ((run exHandlersFail 100 exDb3 exTaskR).2 = Except.error "boom" ∧
      findTask (run exHandlersFail 100 exDb3 exTaskR).1 exTaskR.taskId
        = some (failedTask exDb3 exTaskR) ∧
      (failedTask exDb3 exTaskR).status = TaskStatus.failed ∧
      (failedTask exDb3 exTaskR).progress = none) ∧
    ({ exTaskC with
        status := prepareStatus (workflowTasks exDb1 exTaskC.workflowId) exTaskC } : Task).progress
      = exTaskC.progress :=
  ⟨(progress_field_discipline exHandlersFail 100 exDb3 exTaskR).2.1
      (fun _ => Except.error "boom") "boom" (by decide) (by rfl) (by rfl),
    (progress_field_discipline exHandlersFail 100 exDb1 exTaskC).2.2
      (saveTask exDb1
        { exTaskC with
            status := prepareStatus (workflowTasks exDb1 exTaskC.workflowId) exTaskC })
      { exTaskC with
          status := prepareStatus (workflowTasks exDb1 exTaskC.workflowId) exTaskC }
      (by rfl)⟩

/-- A store whose row for `task.taskId` is exactly `task` (freshly loaded
entity): the row is present. -/
theorem row_any (db : DB) (task : Task)
    (hrow : db.tasks.filter (fun u => u.taskId == task.taskId) = [task]) :
    db.tasks.any (fun u => u.taskId == task.taskId) = true := by
  have hm : task ∈ db.tasks.filter (fun u => u.taskId == task.taskId) := by
    rw [hrow]; exact List.mem_singleton.mpr rfl
  have hm' := List.mem_filter.mp hm
  exact List.any_of_mem hm'.1 hm'.2

/-- A store whose row for `task.taskId` is exactly `task`: any row with that
id is `task`. -/
theorem row_uniq (db : DB) (task : Task)
    (hrow : db.tasks.filter (fun u => u.taskId == task.taskId) = [task]) :
    ∀ u ∈ db.tasks, (u.taskId == task.taskId) = true → u = task := by
  intro u hu hid
  have : u ∈ db.tasks.filter (fun u => u.taskId == task.taskId) :=
    List.mem_filter.mpr ⟨hu, hid⟩
  rw [hrow] at this
  exact List.mem_singleton.mp this

/-- Saving a copy of the unique row of `task` that differs only in status
does not change the ordering-gate verdict for that task: the gate only looks
at rows with a strictly smaller step number, and the task's own row has the
same step number. -/
theorem prevIncomplete_save (db : DB) (task : Task) (s : TaskStatus)
    (hrow : db.tasks.filter (fun u => u.taskId == task.taskId) = [task]) :
    (prevIncomplete
        (workflowTasks (saveTask db { task with status := s }) task.workflowId)
        { task with status := s } ↔
      prevIncomplete (workflowTasks db task.workflowId) task) := by
  have hany : db.tasks.any (fun u => u.taskId == task.taskId) = true :=
    row_any db task hrow
  have huniq := row_uniq db task hrow
  have htasks : (saveTask db { task with status := s }).tasks
      = db.tasks.map (fun u => if u.taskId == task.taskId then { task with status := s } else u) := by
    show (if db.tasks.any (fun u => u.taskId == task.taskId) then
        db.tasks.map (fun u => if u.taskId == task.taskId then { task with status := s } else u)
      else db.tasks ++ [{ task with status := s }]) = _
    rw [if_pos hany]
  unfold prevIncomplete
  constructor
  · rintro ⟨u, hu, hstep, hcomp, hfail⟩
    have hu1 : u ∈ (saveTask db { task with status := s }).tasks ∧
        (u.workflowId == task.workflowId) = true := List.mem_filter.mp hu
    obtain ⟨v, hv, hfv⟩ := List.mem_map.mp (htasks ▸ hu1.1)
    by_cases hvid : (v.taskId == task.taskId) = true
    · exfalso
      have hveq : v = task := huniq v hv hvid
      rw [if_pos hvid] at hfv
      have : u.stepNumber = task.stepNumber := by rw [← hfv]
      exact absurd hstep (by rw [this]; exact Nat.lt_irrefl _)
    · rw [if_neg hvid] at hfv
      subst hfv
      exact ⟨v, List.mem_filter.mpr ⟨hv, hu1.2⟩, hstep, hcomp, hfail⟩
  · rintro ⟨u, hu, hstep, hcomp, hfail⟩
    have hu1 : u ∈ db.tasks ∧ (u.workflowId == task.workflowId) = true :=
      List.mem_filter.mp hu
    by_cases hid : (u.taskId == task.taskId) = true
    · exfalso
      have hueq : u = task := huniq u hu1.1 hid
      rw [hueq] at hstep
      exact Nat.lt_irrefl _ hstep
    · refine ⟨u, ?_, hstep, hcomp, hfail⟩
      refine List.mem_filter.mpr ⟨?_, hu1.2⟩
      rw [htasks]
      exact List.mem_map.mpr ⟨u, hu1.1, by rw [if_neg hid]⟩

/-- The status `prepare` would assign is unchanged by persisting a
status-only update of the task's own (unique) row. -/
theorem prepareStatus_stable (db : DB) (task : Task) (s : TaskStatus)
    (hrow : db.tasks.filter (fun u => u.taskId == task.taskId) = [task]) :
    prepareStatus (workflowTasks (saveTask db { task with status := s }) task.workflowId)
        { task with status := s }
      = prepareStatus (workflowTasks db task.workflowId) task := by
  unfold prepareStatus
  exact if_congr (prevIncomplete_save db task s hrow) rfl rfl

/-- Saving the same task entity twice is the same as saving it once. -/
theorem saveTask_saveTask (db : DB) (t : Task) :
    saveTask (saveTask db t) t = saveTask db t := by
  unfold saveTask
  by_cases h : db.tasks.any (fun u => u.taskId == t.taskId) = true
  · simp only [h, if_true]
    have hany2 : (db.tasks.map (fun u => if u.taskId == t.taskId then t else u)).any
        (fun u => u.taskId == t.taskId) = true := by
      rw [List.any_map]
      rcases List.any_eq_true.mp h with ⟨u, hu, hid⟩
      refine List.any_eq_true.mpr ⟨u, hu, ?_⟩
      show ((if u.taskId == t.taskId then t else u).taskId == t.taskId) = true
      rw [if_pos hid]
      simp
    simp only [hany2, if_true]
    congr 1
    rw [List.map_map]
    apply List.map_congr_left
    intro u _
    show (if (if u.taskId == t.taskId then t else u).taskId == t.taskId then t else
      (if u.taskId == t.taskId then t else u)) = _
    by_cases hid : (u.taskId == t.taskId) = true
    · rw [if_pos hid, if_pos (by simp)]
    · rw [if_neg hid, if_neg hid]
  · have h' : db.tasks.any (fun u => u.taskId == t.taskId) = false := by simpa using h
    simp only [h', Bool.false_eq_true, if_false]
    have hany2 : (db.tasks ++ [t]).any (fun u => u.taskId == t.taskId) = true := by
      refine List.any_eq_true.mpr ⟨t, List.mem_append.mpr (Or.inr (List.mem_singleton.mpr rfl)), by simp⟩
    simp only [hany2, if_true]
    congr 1
    rw [List.map_append]
    congr 1
    · have hrep : ∀ u ∈ db.tasks, (if u.taskId == t.taskId then t else u) = u := by
        intro u hu
        have hid : (u.taskId == t.taskId) = false := by
          by_contra hc
          have hb : (u.taskId == t.taskId) = true := by
            cases hb : (u.taskId == t.taskId) with
            | true => rfl
            | false => exact absurd hb hc
          have hcontra : db.tasks.any (fun u => u.taskId == t.taskId) = true :=
            List.any_of_mem hu hb
          rw [h'] at hcontra
          exact Bool.noConfusion hcontra
        rw [if_neg (by simp [hid])]
      calc List.map (fun u => if u.taskId == t.taskId then t else u) db.tasks
          = List.map id db.tasks :=
            List.map_congr_left (fun u hu => (hrep u hu).trans rfl)
        _ = db.tasks := List.map_id _
    · show List.map _ [t] = [t]
      rw [List.map_cons, List.map_nil, if_pos (by simp)]

/-- Claim C8: `prepare` is idempotent. If the task's store row is the freshly
loaded entity itself and `prepare` succeeds, then running `prepare` again on
the saved entity — with no other state change in between — assigns the same
status and leaves the store exactly as it was after the first call. -/
theorem prepare_idempotent (db : DB) (task : Task) (db1 : DB) (t1 : Task)
    (hrow : db.tasks.filter (fun u => u.taskId == task.taskId) = [task])
    (h1 : prepare db task = Except.ok (db1, t1)) :
    prepare db1 t1 = Except.ok (db1, t1) := by
  cases hwf : findWorkflow db task.workflowId with
  | none =>
      unfold prepare at h1
      rw [hwf] at h1
      exact absurd h1 (fun hc => Except.noConfusion hc)
  | some wf =>
      unfold prepare at h1
      simp only [hwf] at h1
      rw [Except.ok.injEq, Prod.mk.injEq] at h1
      obtain ⟨hdb1, ht1⟩ := h1
      subst hdb1
      subst ht1
      unfold prepare
      have hwfT : findWorkflow
          (saveTask db { task with status := prepareStatus (workflowTasks db task.workflowId) task })
          ({ task with status := prepareStatus (workflowTasks db task.workflowId) task } : Task).workflowId
          = some wf := hwf
      simp only [hwfT]
      have hps : prepareStatus
          (workflowTasks
            (saveTask db { task with status := prepareStatus (workflowTasks db task.workflowId) task })
            ({ task with status := prepareStatus (workflowTasks db task.workflowId) task } : Task).workflowId)
          { task with status := prepareStatus (workflowTasks db task.workflowId) task }
          = prepareStatus (workflowTasks db task.workflowId) task :=
        prepareStatus_stable db task (prepareStatus (workflowTasks db task.workflowId) task) hrow
      simp only [hps]
      rw [saveTask_saveTask]

/-- Claim C8 witness: preparing task 3 of the example store once and then
again yields the same outcome. -/
theorem prepare_idempotent_witness :
    prepare (saveTask exDb1 { exTaskC with status := TaskStatus.ready })
        { exTaskC with status := TaskStatus.ready }
      = Except.ok (saveTask exDb1 { exTaskC with status := TaskStatus.ready },
          { exTaskC with status := TaskStatus.ready }) :=
  prepare_idempotent exDb1 exTaskC
    (saveTask exDb1 { exTaskC with status := TaskStatus.ready })
    { exTaskC with status := TaskStatus.ready } (by rfl) (by rfl)

/-- One step of `updateWorkflowFinalResult`'s loop over the workflow's tasks
(lines 197-222): build the per-task record, attach the parsed result payload
and count a completion for a completed task with a result reference whose
result row resolves with data; otherwise attach the task's progress string
as the error, count a failure and clear `success`. -/
def aggregateStep (db : DB) (acc : FinalResult) (task : Task) : FinalResult :=
  let base : TaskInfo :=
    { taskId := task.taskId, taskType := task.taskType, status := task.status,
      result := none, error := none }
  if task.status = TaskStatus.completed ∧ task.resultId ≠ none then
    match findResultByTaskId db task.taskId with
    | some r =>
        match r.data with
        | some d =>
            { acc with
                tasks := acc.tasks ++ [{ base with result := some d }]
                summary := { acc.summary with completedTasks := acc.summary.completedTasks + 1 } }
        | none => { acc with tasks := acc.tasks ++ [base] }
    | none => { acc with tasks := acc.tasks ++ [base] }
  else
    { acc with
        tasks := acc.tasks ++ [{ base with error := task.progress }]
        summary := { acc.summary with failedTasks := acc.summary.failedTasks + 1 }
        success := false }

/-- `WorkflowService.updateWorkflowFinalResult`: fold the per-task records
over the workflow's tasks starting from the empty summary, store the
aggregate as the workflow's final result, set the workflow completed when
`success` survived and failed otherwise, and save the workflow. -/
def updateWorkflowFinalResult (db : DB) (workflow : Workflow) : DB :=
  let finalResult := (workflowTasks db workflow.workflowId).foldl (aggregateStep db)
    { tasks := [], summary := { completedTasks := 0, failedTasks := 0 }, success := true }
  saveWorkflow db
    { workflow with
        finalResult := some finalResult
        status := if finalResult.success then WorkflowStatus.completed
          else WorkflowStatus.failed }

/-- The claim's description of one aggregated unit record: id, kind and
status; the parsed Result payload when the unit is completed with a result
reference, otherwise the unit's progress string as the error. -/
def claimTaskInfo (db : DB) (t : Task) : TaskInfo :=
  if t.status = TaskStatus.completed ∧ t.resultId ≠ none then
    { taskId := t.taskId, taskType := t.taskType, status := t.status,
      result := (findResultByTaskId db t.taskId).bind (fun r => r.data), error := none }
  else
    { taskId := t.taskId, taskType := t.taskType, status := t.status,
      result := none, error := t.progress }

/-- The claim's description of the aggregate: all unit records, the count of
completed-with-result units, the count of the remaining units, and success
exactly when the failed count is zero. -/
def claimFinalResult (db : DB) (tasks : List Task) : FinalResult :=
  { tasks := tasks.map (claimTaskInfo db)
    summary :=
      { completedTasks := tasks.countP
          (fun t => decide (t.status = TaskStatus.completed ∧ t.resultId ≠ none))
        failedTasks := tasks.countP
          (fun t => decide ¬(t.status = TaskStatus.completed ∧ t.resultId ≠ none)) }
    success := decide (tasks.countP
      (fun t => decide ¬(t.status = TaskStatus.completed ∧ t.resultId ≠ none)) = 0) }

/-- Store well-formedness for aggregation (the data-model invariant that a
completed unit's result reference resolves to a stored Result with data). -/
def ResultsResolve (db : DB) (tasks : List Task) : Prop :=
  ∀ t ∈ tasks, t.status = TaskStatus.completed → t.resultId ≠ none →
    ∃ r ∈ db.results, findResultByTaskId db t.taskId = some r ∧ r.data ≠ none

instance (db : DB) (tasks : List Task) : Decidable (ResultsResolve db tasks) := by
  unfold ResultsResolve; infer_instance

/-- Unfolding the aggregation fold over a task list with resolving results:
records in order, counters added to the accumulator, success preserved
exactly when nothing fell into the failure branch. -/
theorem aggregate_foldl (db : DB) (ts : List Task) (acc : FinalResult)
    (hres : ResultsResolve db ts) :
    ts.foldl (aggregateStep db) acc =
      { tasks := acc.tasks ++ ts.map (claimTaskInfo db)
        summary :=
          { completedTasks := acc.summary.completedTasks + ts.countP
              (fun t => decide (t.status = TaskStatus.completed ∧ t.resultId ≠ none))
            failedTasks := acc.summary.failedTasks + ts.countP
              (fun t => decide ¬(t.status = TaskStatus.completed ∧ t.resultId ≠ none)) }
        success := acc.success && decide (ts.countP
          (fun t => decide ¬(t.status = TaskStatus.completed ∧ t.resultId ≠ none)) = 0) } := by
  induction ts generalizing acc with
  | nil =>
      simp only [List.foldl_nil, List.map_nil, List.append_nil, List.countP_nil,
        Nat.add_zero, decide_True, Bool.and_true]
  | cons t ts ih =>
      have hres' : ResultsResolve db ts := fun u hu => hres u (List.mem_cons_of_mem t hu)
      rw [List.foldl_cons, ih _ hres']
      by_cases ht : t.status = TaskStatus.completed ∧ t.resultId ≠ none
      · obtain ⟨r, _, hfind, hdata⟩ := hres t (List.mem_cons_self t ts) ht.1 ht.2
        cases hd : r.data with
        | none => exact absurd hd hdata
        | some d =>
            have hb : decide (t.status = TaskStatus.completed ∧ t.resultId ≠ none) = true :=
              decide_eq_true ht
            have hnb : (decide (¬(t.status = TaskStatus.completed ∧ t.resultId ≠ none))) = false :=
              decide_eq_false (not_not_intro ht)
            have hcpos : List.countP
                (fun u => decide (u.status = TaskStatus.completed ∧ u.resultId ≠ none)) (t :: ts)
                = List.countP
                  (fun u => decide (u.status = TaskStatus.completed ∧ u.resultId ≠ none)) ts + 1 :=
              List.countP_cons_of_pos _ _ hb
            have hcneg : List.countP
                (fun u => decide ¬(u.status = TaskStatus.completed ∧ u.resultId ≠ none)) (t :: ts)
                = List.countP
                  (fun u => decide ¬(u.status = TaskStatus.completed ∧ u.resultId ≠ none)) ts := by
              apply List.countP_cons_of_neg
              simp only [hnb]
              exact Bool.false_ne_true
            have hstep : aggregateStep db acc t =
                { acc with
                    tasks := acc.tasks ++ [claimTaskInfo db t]
                    summary := { acc.summary with
                      completedTasks := acc.summary.completedTasks + 1 } } := by
              unfold aggregateStep claimTaskInfo
              rw [if_pos ht, if_pos ht]
              simp [hfind, hd]
            rw [hstep]
            rw [hcpos, hcneg, List.map_cons]
            simp only [FinalResult.mk.injEq, Summary.mk.injEq]
            refine ⟨?_, ⟨?_, ?_⟩, ?_⟩ <;>
              first
                | trivial
                | omega
                | (rw [List.append_assoc]; rfl)
                | simp
      · have hb : decide (t.status = TaskStatus.completed ∧ t.resultId ≠ none) = false :=
          decide_eq_false ht
        have hnb : (decide (¬(t.status = TaskStatus.completed ∧ t.resultId ≠ none))) = true :=
          decide_eq_true ht
        have hcpos : List.countP
            (fun u => decide (u.status = TaskStatus.completed ∧ u.resultId ≠ none)) (t :: ts)
            = List.countP
              (fun u => decide (u.status = TaskStatus.completed ∧ u.resultId ≠ none)) ts := by
          apply List.countP_cons_of_neg
          simp only [hb]
          exact Bool.false_ne_true
        have hcneg : List.countP
            (fun u => decide ¬(u.status = TaskStatus.completed ∧ u.resultId ≠ none)) (t :: ts)
            = List.countP
              (fun u => decide ¬(u.status = TaskStatus.completed ∧ u.resultId ≠ none)) ts + 1 :=
          List.countP_cons_of_pos _ _ hnb
        have hstep : aggregateStep db acc t =
            { acc with
                tasks := acc.tasks ++ [claimTaskInfo db t]
                summary := { acc.summary with
                  failedTasks := acc.summary.failedTasks + 1 }
                success := false } := by
          unfold aggregateStep claimTaskInfo
          rw [if_neg ht, if_neg ht]
        rw [hstep]
        rw [hcpos, hcneg, List.map_cons]
        simp only [FinalResult.mk.injEq, Summary.mk.injEq]
        refine ⟨?_, ⟨?_, ?_⟩, ?_⟩ <;>
          first
            | trivial
            | omega
            | (rw [List.append_assoc]; rfl)
            | simp

/-- Claim C6: on a store whose completed tasks' result references resolve,
the aggregator stores, as the workflow's final result, exactly the claimed
structure — per-unit records with id, kind, status and either the parsed
payload (counting a completion) or the progress string as error (counting a
failure) — with `success` true iff the failed count is zero, and sets the
workflow status completed iff `success`, saving the workflow. -/
theorem updateWorkflowFinalResult_spec (db : DB) (workflow : Workflow)
    (hres : ResultsResolve db (workflowTasks db workflow.workflowId)) :
    updateWorkflowFinalResult db workflow
      = saveWorkflow db
          { workflow with
              finalResult := some (claimFinalResult db (workflowTasks db workflow.workflowId))
              status := if (claimFinalResult db (workflowTasks db workflow.workflowId)).success
                then WorkflowStatus.completed else WorkflowStatus.failed } ∧
    ((claimFinalResult db (workflowTasks db workflow.workflowId)).success = true ↔
      (claimFinalResult db (workflowTasks db workflow.workflowId)).summary.failedTasks = 0) := by
  constructor
  · unfold updateWorkflowFinalResult
    rw [aggregate_foldl db _ _ hres]
    unfold claimFinalResult
    simp only [List.nil_append, Nat.zero_add, Bool.true_and]
  · unfold claimFinalResult
    simp

/-- Example completed task 8 of workflow 3, with result 21. -/
def exTaskD : Task :=
  { taskId := 8, workflowId := 3, stepNumber := 1, taskType := "polygonArea",
    status := TaskStatus.completed, progress := none, resultId := some 21,
    dependencies := [], dependencyResults := [] }

/-- Example completed task 9 of workflow 3, with result 22. -/
def exTaskE : Task :=
  { taskId := 9, workflowId := 3, stepNumber := 1, taskType := "analysis",
    status := TaskStatus.completed, progress := none, resultId := some 22,
    dependencies := [], dependencyResults := [] }

/-- Example failed task 10 of workflow 3. -/
def exTaskF : Task :=
  { taskId := 10, workflowId := 3, stepNumber := 2, taskType := "reportGeneration",
    status := TaskStatus.failed, progress := none, resultId := none,
    dependencies := [], dependencyResults := [] }

/-- Example workflow 3, in progress. -/
def exWf3 : Workflow :=
  { workflowId := 3, status := WorkflowStatus.inProgress, finalResult := none }

/-- Example store for the aggregation scenario: completed times two, failed
times one. -/
def exDb4 : DB :=
  { workflows := [exWf3],
    tasks := [exTaskD, exTaskE, exTaskF],
    results := [{ resultId := 21, taskId := 8, data := some "areaOut" },
                { resultId := 22, taskId := 9, data := some "statsOut" }] }

/-- Claim C6 witness: workflow 3 has two completed tasks with stored results
and one failed task; the aggregator stores the claimed aggregate (2
completed, 1 failed, success false) and marks the workflow failed. -/
theorem updateWorkflowFinalResult_witness :
    updateWorkflowFinalResult exDb4 exWf3
      = saveWorkflow exDb4
          { exWf3 with
              finalResult := some (claimFinalResult exDb4 (workflowTasks exDb4 exWf3.workflowId))
              status := if (claimFinalResult exDb4 (workflowTasks exDb4 exWf3.workflowId)).success
                then WorkflowStatus.completed else WorkflowStatus.failed } ∧
    ((claimFinalResult exDb4 (workflowTasks exDb4 exWf3.workflowId)).success = true ↔
      (claimFinalResult exDb4 (workflowTasks exDb4 exWf3.workflowId)).summary.failedTasks = 0) :=
  updateWorkflowFinalResult_spec exDb4 exWf3 (by decide)

/-- The fixed batch size of `TaskWorker` (`private readonly batchSize = 10`). -/
def batchSize : Nat := 10

/-- The batch partition of step 4 of `TaskWorker.pool`: the loop
`for (i = 0; i < readyTasks.length; i += batchSize)` taking
`readyTasks.slice(i, i + batchSize)`. -/
def batches (ts : List Task) : List (List Task) :=
  if h : ts = [] then []
  else ts.take batchSize :: batches (ts.drop batchSize)
termination_by ts.length
decreasing_by
  simp only [List.length_drop]
  exact Nat.sub_lt (List.length_pos.mpr h) (by decide)

/-- Observable events of one cycle's dispatch: a task's `run` call is
started, or its promise settles (`ok = false` when the per-task catch
swallowed an execution error). -/
inductive Event where
  | dispatched (taskId : Nat)
  | settled (taskId : Nat) (ok : Bool)
deriving DecidableEq, Repr

/-- Trace of one batch under `Promise.all`: every task of the batch is
dispatched, and the whole batch is awaited — every settlement (success or
caught error, decided by the `outcome` oracle) happens before the loop moves
to the next batch. -/
def batchTrace (outcome : Nat → Bool) (b : List Task) : List Event :=
  b.map (fun t => Event.dispatched t.taskId)
    ++ b.map (fun t => Event.settled t.taskId (outcome t.taskId))

/-- Trace of step 4 of one `TaskWorker.pool` cycle: batches strictly in
order, each fully settled before the next starts. -/
def cycleTrace (outcome : Nat → Bool) (ready : List Task) : List Event :=
  ((batches ready).map (batchTrace outcome)).flatten

/-- In-flight count change caused by one event. -/
def inFlightStep (n : Nat) (e : Event) : Nat :=
  match e with
  | Event.dispatched _ => n + 1
  | Event.settled _ _ => n - 1

/-- Largest in-flight count reached along a trace started at `cur`. -/
def maxInFlightAux : Nat → List Event → Nat
  | cur, [] => cur
  | cur, e :: es => max cur (maxInFlightAux (inFlightStep cur e) es)

/-- Largest number of simultaneously dispatched, unsettled runs in a
trace. -/
def maxInFlight (es : List Event) : Nat := maxInFlightAux 0 es

/-- The task ids dispatched along a trace, in order. -/
def dispatchedIds (es : List Event) : List Nat :=
  es.filterMap (fun e => match e with
    | Event.dispatched i => some i
    | Event.settled _ _ => none)

/-- Every batch produced by the partition has at most `batchSize` tasks. -/
theorem batches_length_le_aux (n : Nat) :
    ∀ ts : List Task, ts.length ≤ n → ∀ b ∈ batches ts, b.length ≤ batchSize := by
  induction n with
  | zero =>
      intro ts h b hb
      have hnil : ts = [] := List.eq_nil_of_length_eq_zero (Nat.le_zero.mp h)
      subst hnil
      unfold batches at hb
      simp at hb
  | succ n ih =>
      intro ts h b hb
      by_cases hts : ts = []
      · subst hts
        unfold batches at hb
        simp at hb
      · unfold batches at hb
        rw [dif_neg hts] at hb
        rcases List.mem_cons.mp hb with hb1 | hb2
        · subst hb1
          rw [List.length_take]
          exact Nat.min_le_left _ _
        · refine ih (ts.drop batchSize) ?_ b hb2
          rw [List.length_drop]
          have hpos : 0 < ts.length := List.length_pos.mpr hts
          have hbs : batchSize = 10 := rfl
          omega

/-- The partition concatenates back to the original ready list, in order. -/
theorem batches_join_aux (n : Nat) :
    ∀ ts : List Task, ts.length ≤ n → (batches ts).flatten = ts := by
  induction n with
  | zero =>
      intro ts h
      have hnil : ts = [] := List.eq_nil_of_length_eq_zero (Nat.le_zero.mp h)
      subst hnil
      unfold batches
      simp
  | succ n ih =>
      intro ts h
      by_cases hts : ts = []
      · subst hts
        unfold batches
        simp
      · unfold batches
        rw [dif_neg hts]
        rw [List.flatten_cons]
        rw [ih (ts.drop batchSize) (by
          rw [List.length_drop]
          have hpos : 0 < ts.length := List.length_pos.mpr hts
          have hbs : batchSize = 10 := rfl
          omega)]
        exact List.take_append_drop batchSize ts

/-- The dispatched ids of one batch trace are the batch's task ids. -/
theorem dispatchedIds_batchTrace (outcome : Nat → Bool) (b : List Task) :
    dispatchedIds (batchTrace outcome b) = b.map Task.taskId := by
  unfold dispatchedIds batchTrace
  rw [List.filterMap_append]
  have h1 : ∀ l : List Task, (l.map (fun t => Event.dispatched t.taskId)).filterMap
      (fun e => match e with
        | Event.dispatched i => some i
        | Event.settled _ _ => none) = l.map Task.taskId := by
    intro l
    induction l with
    | nil => rfl
    | cons t ts ih => simp only [List.map_cons, List.filterMap_cons, ih]
  have h2 : ∀ l : List Task, (l.map (fun t => Event.settled t.taskId (outcome t.taskId))).filterMap
      (fun e => match e with
        | Event.dispatched i => some i
        | Event.settled _ _ => none) = [] := by
    intro l
    induction l with
    | nil => rfl
    | cons t ts ih => simp only [List.map_cons, List.filterMap_cons, ih]
  rw [h1, h2, List.append_nil]

/-- `dispatchedIds` distributes over concatenation of traces. -/
theorem dispatchedIds_join (ll : List (List Event)) :
    dispatchedIds ll.flatten = (ll.map dispatchedIds).flatten := by
  induction ll with
  | nil => rfl
  | cons es ll ih =>
      rw [List.flatten_cons, List.map_cons, List.flatten_cons, ← ih]
      unfold dispatchedIds
      rw [List.filterMap_append]

/-- The starting count never exceeds the maximum along a trace. -/
theorem le_maxInFlightAux (cur : Nat) (es : List Event) :
    cur ≤ maxInFlightAux cur es := by
  cases es with
  | nil => exact Nat.le_refl _
  | cons e es => exact Nat.le_max_left _ _

/-- Dispatching a whole batch raises the running count by its length. -/
theorem maxInFlightAux_dispatch_run (b : List Task) (cur : Nat) (es : List Event) :
    maxInFlightAux cur (b.map (fun t => Event.dispatched t.taskId) ++ es)
      = max cur (maxInFlightAux (cur + b.length) es) := by
  induction b generalizing cur with
  | nil =>
      rw [List.map_nil, List.nil_append, List.length_nil, Nat.add_zero]
      exact (Nat.max_eq_right (le_maxInFlightAux cur es)).symm
  | cons t b ih =>
      rw [List.map_cons, List.cons_append]
      show max cur (maxInFlightAux (cur + 1) (b.map _ ++ es)) = _
      rw [ih (cur + 1)]
      have h1 : cur + 1 ≤ maxInFlightAux (cur + 1 + b.length) es :=
        Nat.le_trans (Nat.le_add_right _ _) (le_maxInFlightAux _ _)
      rw [Nat.max_eq_right h1]
      have h2 : cur + 1 + b.length = cur + (b.length + 1) := by omega
      rw [h2, List.length_cons]

/-- Settling a whole batch lowers the running count by its length; the peak
is the starting count or whatever follows. -/
theorem maxInFlightAux_settle_run (outcome : Nat → Bool) (b : List Task)
    (cur : Nat) (es : List Event) :
    maxInFlightAux cur (b.map (fun t => Event.settled t.taskId (outcome t.taskId)) ++ es)
      = max cur (maxInFlightAux (cur - b.length) es) := by
  induction b generalizing cur with
  | nil =>
      rw [List.map_nil, List.nil_append, List.length_nil, Nat.sub_zero]
      exact (Nat.max_eq_right (le_maxInFlightAux cur es)).symm
  | cons t b ih =>
      rw [List.map_cons, List.cons_append]
      show max cur (maxInFlightAux (cur - 1) (b.map _ ++ es)) = _
      rw [ih (cur - 1)]
      rw [← Nat.max_assoc, Nat.max_eq_left (Nat.sub_le cur 1)]
      rw [Nat.sub_sub, List.length_cons, Nat.add_comm 1 b.length]

/-- One batch trace peaks at the batch length, then the count is back to
zero for the rest. -/
theorem maxInFlightAux_batch (outcome : Nat → Bool) (b : List Task) (es : List Event) :
    maxInFlightAux 0 (batchTrace outcome b ++ es)
      = max b.length (maxInFlightAux 0 es) := by
  unfold batchTrace
  rw [List.append_assoc, maxInFlightAux_dispatch_run, maxInFlightAux_settle_run]
  rw [Nat.zero_add, Nat.sub_self, Nat.zero_max]

/-- The cycle trace never has more than `batchSize` runs in flight. -/
theorem maxInFlight_cycle_aux (outcome : Nat → Bool) (n : Nat) :
    ∀ ts : List Task, ts.length ≤ n →
      maxInFlight (cycleTrace outcome ts) ≤ batchSize := by
  induction n with
  | zero =>
      intro ts h
      have hnil : ts = [] := List.eq_nil_of_length_eq_zero (Nat.le_zero.mp h)
      subst hnil
      show maxInFlightAux 0 ((batches ([] : List Task)).map (batchTrace outcome)).flatten ≤ batchSize
      unfold batches
      simp [maxInFlightAux]
  | succ n ih =>
      intro ts h
      by_cases hts : ts = []
      · subst hts
        show maxInFlightAux 0 ((batches ([] : List Task)).map (batchTrace outcome)).flatten ≤ batchSize
        unfold batches
        simp [maxInFlightAux]
      · show maxInFlightAux 0 ((batches ts).map (batchTrace outcome)).flatten ≤ batchSize
        unfold batches
        rw [dif_neg hts, List.map_cons, List.flatten_cons, maxInFlightAux_batch]
        refine Nat.max_le.mpr ⟨?_, ?_⟩
        · rw [List.length_take]
          exact Nat.min_le_left _ _
        · refine ih (ts.drop batchSize) ?_
          rw [List.length_drop]
          have hpos : 0 < ts.length := List.length_pos.mpr hts
          have hbs : batchSize = 10 := rfl
          omega

/-- Claim C9: one poll cycle partitions the fetched ready tasks into
consecutive batches of at most 10 whose concatenation is the whole list in
order; in its trace — every batch fully settled before the next one starts,
as `Promise.all` is awaited — never more than 10 runs are in flight at once;
and every ready task is dispatched exactly once whatever each task's outcome
is, because execution errors are caught per task. -/
theorem pool_batching (outcome : Nat → Bool) (ready : List Task) :
    (∀ b ∈ batches ready, b.length ≤ batchSize) ∧
    (batches ready).flatten = ready ∧
    dispatchedIds (cycleTrace outcome ready) = ready.map Task.taskId ∧
    maxInFlight (cycleTrace outcome ready) ≤ batchSize := by
  refine ⟨batches_length_le_aux ready.length ready (Nat.le_refl _),
    batches_join_aux ready.length ready (Nat.le_refl _), ?_,
    maxInFlight_cycle_aux outcome ready.length ready (Nat.le_refl _)⟩
  unfold cycleTrace
  rw [dispatchedIds_join, List.map_map]
  have hmap : (batches ready).map (dispatchedIds ∘ batchTrace outcome)
      = (batches ready).map (fun b => b.map Task.taskId) :=
    List.map_congr_left (fun b _ => dispatchedIds_batchTrace outcome b)
  rw [hmap, ← List.map_flatten, batches_join_aux ready.length ready (Nat.le_refl _)]

end TaskEngine
